import Mathlib

/-!
Verification of the WinScope opportunity pipeline
(`winscope_intelligence_network.py`, `winscope_master_orchestrator.py`).

The Python code is shallowly embedded: machine floats become `ℚ`,
`datetime` values become `ℚ` timestamps (hours), fallible externals become
`Except`, and `hashlib.md5` is implemented bit-for-bit over byte lists.
-/

set_option maxRecDepth 100000

namespace WinScope

/-! ### 32-bit helpers (Python ints truncated mod 2^32, as `hashlib.md5` does) -/

/-- Bitwise AND of the low `k` bits of two naturals, by structural recursion. -/
def landAux : Nat → Nat → Nat → Nat
  | 0, _, _ => 0
  | k + 1, a, b => min (a % 2) (b % 2) + 2 * landAux k (a / 2) (b / 2)

/-- Bitwise OR of the low `k` bits of two naturals. -/
def lorAux : Nat → Nat → Nat → Nat
  | 0, _, _ => 0
  | k + 1, a, b => max (a % 2) (b % 2) + 2 * lorAux k (a / 2) (b / 2)

/-- Bitwise XOR of the low `k` bits of two naturals. -/
def xorAux : Nat → Nat → Nat → Nat
  | 0, _, _ => 0
  | k + 1, a, b => (a % 2 + b % 2) % 2 + 2 * xorAux k (a / 2) (b / 2)

def land32 (a b : Nat) : Nat := landAux 32 a b

def lor32 (a b : Nat) : Nat := lorAux 32 a b

def xor32 (a b : Nat) : Nat := xorAux 32 a b

/-- 32-bit complement (inputs are kept < 2^32 throughout). -/
def not32 (a : Nat) : Nat := 4294967295 - a % 4294967296

/-- Rotate a 32-bit word left by `s` bits (`s ≤ 32`). -/
def rotl32 (s x : Nat) : Nat := x % 2 ^ (32 - s) * 2 ^ s + x / 2 ^ (32 - s)

/-! ### MD5 (`hashlib.md5`), as used by `Opportunity.generate_id` -/

/-- The 64 MD5 sine-derived round constants. -/
def md5K : List Nat :=
  [3614090360, 3905402710, 606105819, 3250441966, 4118548399, 1200080426,
   2821735955, 4249261313, 1770035416, 2336552879, 4294925233, 2304563134,
   1804603682, 4254626195, 2792965006, 1236535329, 4129170786, 3225465664,
   643717713, 3921069994, 3593408605, 38016083, 3634488961, 3889429448,
   568446438, 3275163606, 4107603335, 1163531501, 2850285829, 4243563512,
   1735328473, 2368359562, 4294588738, 2272392833, 1839030562, 4259657740,
   2763975236, 1272893353, 4139469664, 3200236656, 681279174, 3936430074,
   3572445317, 76029189, 3654602809, 3873151461, 530742520, 3299628645,
   4096336452, 1126891415, 2878612391, 4237533241, 1700485571, 2399980690,
   4293915773, 2240044497, 1873313359, 4264355552, 2734768916, 1309151649,
   4149444226, 3174756917, 718787259, 3951481745]

/-- The 64 MD5 per-round left-rotation amounts. -/
def md5S : List Nat :=
  [7, 12, 17, 22, 7, 12, 17, 22, 7, 12, 17, 22, 7, 12, 17, 22,
   5, 9, 14, 20, 5, 9, 14, 20, 5, 9, 14, 20, 5, 9, 14, 20,
   4, 11, 16, 23, 4, 11, 16, 23, 4, 11, 16, 23, 4, 11, 16, 23,
   6, 10, 15, 21, 6, 10, 15, 21, 6, 10, 15, 21, 6, 10, 15, 21]

def mdF (x y z : Nat) : Nat := lor32 (land32 x y) (land32 (not32 x) z)

def mdG (x y z : Nat) : Nat := lor32 (land32 x z) (land32 y (not32 z))

def mdH (x y z : Nat) : Nat := xor32 x (xor32 y z)

def mdI (x y z : Nat) : Nat := xor32 y (lor32 x (not32 z))

/-- `n` little-endian bytes of a natural number. -/
def leBytes : Nat → Nat → List Nat
  | 0, _ => []
  | k + 1, n => n % 256 :: leBytes k (n / 256)

/-- MD5 padding: append `0x80`, zero-fill to 56 mod 64, then the 8-byte
little-endian bit length. -/
def md5pad (msg : List Nat) : List Nat :=
  msg ++ [128] ++ List.replicate ((119 - msg.length % 64) % 64) 0
      ++ leBytes 8 (msg.length * 8)

/-- Group bytes into little-endian 32-bit words. -/
def bytesToWords : List Nat → List Nat
  | b0 :: b1 :: b2 :: b3 :: rest =>
      (b0 + 256 * b1 + 65536 * b2 + 16777216 * b3) :: bytesToWords rest
  | _ => []

/-- Split a word list into 16-word blocks (fuel-driven for structural recursion). -/
def blocks16Aux : Nat → List Nat → List (List Nat)
  | 0, _ => []
  | _, [] => []
  | k + 1, ws => ws.take 16 :: blocks16Aux k (ws.drop 16)

def blocks16 (ws : List Nat) : List (List Nat) := blocks16Aux ws.length ws

structure MD5State where
  a : Nat
  b : Nat
  c : Nat
  d : Nat
  deriving DecidableEq

def md5init : MD5State := ⟨0x67452301, 0xefcdab89, 0x98badcfe, 0x10325476⟩

/-- One MD5 round `i` on state `st` with message words `M`. -/
def md5round (M : List Nat) (st : MD5State) (i : Nat) : MD5State :=
  let f :=
    if i < 16 then mdF st.b st.c st.d
    else if i < 32 then mdG st.b st.c st.d
    else if i < 48 then mdH st.b st.c st.d
    else mdI st.b st.c st.d
  let g :=
    if i < 16 then i
    else if i < 32 then (5 * i + 1) % 16
    else if i < 48 then (3 * i + 5) % 16
    else 7 * i % 16
  let t := (f + st.a + md5K.getD i 0 + M.getD g 0) % 4294967296
  ⟨st.d, (st.b + rotl32 (md5S.getD i 0) t) % 4294967296, st.b, st.c⟩

/-- MD5 compression of one 16-word block into the running state. -/
def md5compress (h : MD5State) (M : List Nat) : MD5State :=
  let r := (List.range 64).foldl (md5round M) h
  ⟨(h.a + r.a) % 4294967296, (h.b + r.b) % 4294967296,
   (h.c + r.c) % 4294967296, (h.d + r.d) % 4294967296⟩

/-- MD5 digest of a byte list, as 16 bytes. -/
def md5digestBytes (msg : List Nat) : List Nat :=
  let st := (blocks16 (bytesToWords (md5pad msg))).foldl md5compress md5init
  leBytes 4 st.a ++ leBytes 4 st.b ++ leBytes 4 st.c ++ leBytes 4 st.d

/-- Lowercase hex digit. -/
def hexChar (n : Nat) : Char := if n < 10 then Char.ofNat (48 + n) else Char.ofNat (87 + n)

def byteHex (b : Nat) : List Char := [hexChar (b / 16), hexChar (b % 16)]

/-- `hashlib.md5(...).hexdigest()` over a byte list. -/
def md5hexdigest (msg : List Nat) : String := ⟨((md5digestBytes msg).map byteHex).flatten⟩

/-- UTF-8 encoding of one character (Python `str.encode()`). -/
def utf8Bytes (c : Char) : List Nat :=
  let n := c.toNat
  if n < 128 then [n]
  else if n < 2048 then [192 + n / 64, 128 + n % 64]
  else if n < 65536 then [224 + n / 4096, 128 + n / 64 % 64, 128 + n % 64]
  else [240 + n / 262144, 128 + n / 4096 % 64, 128 + n / 64 % 64, 128 + n % 64]

/-- Python `s.encode()`: UTF-8 bytes of a string. -/
def strBytes (s : String) : List Nat := (s.data.map utf8Bytes).flatten

/-! ### Data model (`winscope_intelligence_network.py`)

Floats become `ℚ`; `datetime` values become `ℚ` timestamps measured in hours.
The opaque `raw_data` payload and the `extracted_at` bookkeeping timestamp are
omitted: no modelled operation reads them. -/

/-- The `Opportunity` dataclass. -/
structure Opportunity where
  id : String
  source_portal : String
  title : String
  agency : String
  naics_codes : List String
  description : String
  solicitation_number : String
  posted_date : ℚ
  due_date : Option ℚ
  estimated_value : Option ℚ
  set_aside : Option String
  location : Option String
  attachments : List String
  match_score : ℚ
  win_probability : ℚ
  deriving DecidableEq

/-- `Opportunity.generate_id`: the md5 hex digest, truncated to 16 characters,
of `f"{source_portal}_{solicitation_number}"`. -/
def generate_id (o : Opportunity) : String :=
  ⟨(((md5digestBytes (strBytes (o.source_portal ++ "_" ++ o.solicitation_number))).map
      byteHex).flatten).take 16⟩

/-- `Opportunity.__post_init__`: fill in `id` from `generate_id` when it is empty. -/
def postInit (o : Opportunity) : Opportunity :=
  if o.id = "" then { o with id := generate_id o } else o

/-! ### Adaptive scheduling (`PortalConfig`) -/

/-- The scheduling-relevant fields of the `PortalConfig` dataclass. -/
structure PortalConfig where
  name : String
  scrape_frequency_hours : ℚ
  naics_codes : List String
  keywords : List String
  last_scrape : Option ℚ
  success_rate : ℚ
  avg_opportunities_per_scrape : ℚ
  deriving DecidableEq

/-- The effective interval computed inside `PortalConfig.should_scrape`:
the base interval halved above 5 opportunities per scrape, doubled below 1,
unchanged otherwise. -/
def effectiveFrequency (cfg : PortalConfig) : ℚ :=
  if cfg.avg_opportunities_per_scrape > 5 then cfg.scrape_frequency_hours * (1 / 2)
  else if cfg.avg_opportunities_per_scrape < 1 then cfg.scrape_frequency_hours * 2
  else cfg.scrape_frequency_hours

/-- `PortalConfig.should_scrape` at wall-clock time `now` (hours): due when never
scraped, or when the hours elapsed since `last_scrape` reach the effective interval. -/
def should_scrape (cfg : PortalConfig) (now : ℚ) : Bool :=
  match cfg.last_scrape with
  | none => true
  | some t => decide (now - t ≥ effectiveFrequency cfg)

/-- The bookkeeping every scraper performs after a fetch attempt
(e.g. `CaliforniaEProcureScraper.scrape`, which catches any exception, leaves
`opportunities = []`, then sets `last_scrape = now` and
`avg_opportunities_per_scrape = len(opportunities)`). A failed or timed-out
fetch is the `found = 0` case. -/
def scrapeUpdate (cfg : PortalConfig) (now : ℚ) (found : Nat) : PortalConfig :=
  { cfg with last_scrape := some now, avg_opportunities_per_scrape := found }

/-! ### Scoring (`OpportunityScorer`) -/

/-- The scorer's company profile (`OpportunityScorer.__init__`). -/
structure CompanyProfile where
  naics_codes : List String
  certifications : List String
  preferred_states : List String
  sweet_spot_lo : ℚ
  sweet_spot_hi : ℚ
  deriving DecidableEq

/-- The literal profile built in `OpportunityScorer.__init__`. -/
def singhProfile : CompanyProfile :=
  { naics_codes := ["333249", "541330", "541512", "541715", "237130", "333922"]
    certifications := ["FANUC ASI", "UR CSP", "MBE", "WBENC", "SBE"]
    preferred_states := ["CA", "MI"]
    sweet_spot_lo := 50000
    sweet_spot_hi := 500000 }

/-- `OpportunityScorer._score_contract_value`: 0.5 when the value is unknown,
1.0 inside the sweet-spot range, `max(0.3, value/lo)` below it,
`max(0.2, hi/value)` above it. -/
def score_contract_value (p : CompanyProfile) (value : Option ℚ) : ℚ :=
  match value with
  | none => 1 / 2
  | some v =>
      if p.sweet_spot_lo ≤ v ∧ v ≤ p.sweet_spot_hi then 1
      else if v < p.sweet_spot_lo then max (3 / 10) (v / p.sweet_spot_lo)
      else max (1 / 5) (p.sweet_spot_hi / v)

/-- `OpportunityScorer._score_keywords`, abstracted over the outcome of the
external semantic-judgment call: `Except.error` is the `try`-block failing
(API error or an unparseable response), `Except.ok s` is a successfully parsed
float `s`. The code returns `max(0.0, min(1.0, score))` on success and the
neutral `0.5` from the `except` handler. -/
def score_keywords (response : Except String ℚ) : ℚ :=
  match response with
  | .error _ => 1 / 2
  | .ok s => max 0 (min 1 s)

/-! ### Collection and deduplication (`WinScopeIntelligenceNetwork`) -/

/-- The loop body of `WinScopeIntelligenceNetwork._deduplicate`, with the
`seen_ids` accumulator made explicit: keep an opportunity only when its `id`
has not been seen, recording each kept `id`. -/
def dedupAux (seen : List String) : List Opportunity → List Opportunity
  | [] => []
  | o :: rest =>
      if o.id ∈ seen then dedupAux seen rest
      else o :: dedupAux (o.id :: seen) rest

/-- `WinScopeIntelligenceNetwork._deduplicate`: first occurrence per `id` wins. -/
def deduplicate (l : List Opportunity) : List Opportunity := dedupAux [] l

/-- The aggregation loop of `WinScopeIntelligenceNetwork.scrape_all_portals`
over the `asyncio.gather(..., return_exceptions=True)` results: successful
batches are flattened in order, exceptions are collected (the code reports
each via `logger.error`). -/
def partitionResults :
    List (Except String (List Opportunity)) → List Opportunity × List String
  | [] => ([], [])
  | .ok batch :: rest =>
      let p := partitionResults rest
      (batch ++ p.1, p.2)
  | .error msg :: rest =>
      let p := partitionResults rest
      (p.1, msg :: p.2)

/-- The successful batches among the per-source results. -/
def okBatches : List (Except String (List Opportunity)) → List (List Opportunity)
  | [] => []
  | .ok batch :: rest => batch :: okBatches rest
  | .error _ :: rest => okBatches rest

/-- Whether a per-source result is a failure. -/
def isFailure (r : Except String (List Opportunity)) : Bool :=
  match r with
  | .ok _ => false
  | .error _ => true

/-- `WinScopeIntelligenceNetwork.scrape_all_portals`, given the per-source
outcomes: flatten the successful batches, deduplicate, and report the errors. -/
def scrape_all_portals (results : List (Except String (List Opportunity))) :
    List Opportunity × List String :=
  let p := partitionResults results
  (deduplicate p.1, p.2)

/-- Stable insertion step for Python's stable sort with
`key=lambda x: x.match_score, reverse=True`: a new element goes after every
already-placed element of strictly higher score and before ties. -/
def insertOpp (x : Opportunity) : List Opportunity → List Opportunity
  | [] => [x]
  | y :: ys =>
      if x.match_score < y.match_score then y :: insertOpp x ys
      else x :: y :: ys

/-- The ranking step of `WinScopeIntelligenceNetwork.score_opportunities`
(`scored.sort(key=lambda x: x.match_score, reverse=True)`): Python's stable
sort, descending by `match_score`. -/
def sortOpportunities : List Opportunity → List Opportunity
  | [] => []
  | x :: xs => insertOpp x (sortOpportunities xs)

/-- `WinScopeIntelligenceNetwork.get_top_opportunities`: filter by
`match_score >= min_score`, sort descending by score (Python `sorted`, the
same stable sort), take the first `limit`. -/
def get_top_opportunities (opportunities : List Opportunity) (limit : Nat)
    (min_score : ℚ) : List Opportunity :=
  (sortOpportunities
    (opportunities.filter (fun o => decide (o.match_score ≥ min_score)))).take limit

/-! ### Pipeline (`winscope_master_orchestrator.py`) -/

/-- The `OpportunityStage` enum. -/
inductive OpportunityStage where
  | DISCOVERED
  | SCORED
  | QUALIFIED
  | DOCUMENTS_DOWNLOADED
  | DATA_EXTRACTED
  | RFQ_GENERATED
  | RFQ_SENT
  | QUOTES_RECEIVED
  | PROPOSAL_GENERATED
  | PROPOSAL_SUBMITTED
  | WON
  | LOST
  | NO_BID
  deriving DecidableEq

/-- Position of a stage in the pipeline's declared order. -/
def stageIndex : OpportunityStage → Nat
  | .DISCOVERED => 0
  | .SCORED => 1
  | .QUALIFIED => 2
  | .DOCUMENTS_DOWNLOADED => 3
  | .DATA_EXTRACTED => 4
  | .RFQ_GENERATED => 5
  | .RFQ_SENT => 6
  | .QUOTES_RECEIVED => 7
  | .PROPOSAL_GENERATED => 8
  | .PROPOSAL_SUBMITTED => 9
  | .WON => 10
  | .LOST => 11
  | .NO_BID => 12

/-- The `OpportunityRecord` dataclass (the fields the modelled operations
touch; document paths and the free-form note fields are omitted). -/
structure OpportunityRecord where
  id : String
  solicitation_number : String
  source_portal : String
  title : String
  agency : String
  stage : OpportunityStage
  match_score : ℚ
  win_probability : ℚ
  discovered_at : ℚ
  qualified_at : Option ℚ
  manual_interventions : List String
  deriving DecidableEq

/-- The record construction at the top of
`WinScopeMasterOrchestrator._process_opportunity`. -/
def recordFromOpportunity (now : ℚ) (opp : Opportunity) : OpportunityRecord :=
  { id := opp.id
    solicitation_number := opp.solicitation_number
    source_portal := opp.source_portal
    title := opp.title
    agency := opp.agency
    stage := .QUALIFIED
    match_score := opp.match_score
    win_probability := opp.win_probability
    discovered_at := now
    qualified_at := some now
    manual_interventions := [] }

/-- `WinScopeMasterOrchestrator._save_opportunity_record`: SQLite
`INSERT OR REPLACE` keyed on the primary key `id` — replace the row with the
same `id` when one exists, append otherwise. -/
def save_opportunity_record (db : List OpportunityRecord) (r : OpportunityRecord) :
    List OpportunityRecord :=
  if db.any (fun x => x.id == r.id) then
    db.map (fun x => if x.id == r.id then r else x)
  else db ++ [r]

/-- `WinScopeMasterOrchestrator._process_opportunity` on the path the code
actually takes (the demo `try` body cannot raise: it only reassigns
`record.stage` twice), ending with the save. -/
def process_opportunity (db : List OpportunityRecord) (now : ℚ) (opp : Opportunity) :
    List OpportunityRecord :=
  let r0 := recordFromOpportunity now opp
  let r1 := { r0 with stage := .DATA_EXTRACTED }
  let r2 := { r1 with stage := .RFQ_GENERATED }
  save_opportunity_record db r2

/-- `self.config['min_match_score']` in `WinScopeMasterOrchestrator.__init__`. -/
def min_match_score : ℚ := 50

/-- `WinScopeMasterOrchestrator._qualify_opportunities`: keep the opportunities
with `match_score >= self.config['min_match_score']`. -/
def qualify_opportunities (opportunities : List Opportunity) : List Opportunity :=
  opportunities.filter (fun o => decide (o.match_score ≥ min_match_score))

/-! ### Learning ledger (`LearningEngine`) -/

/-- The error percentage stored by `LearningEngine.record_pricing_accuracy`:
`abs(estimated - actual) / actual * 100 if actual > 0 else 0`. -/
def pricingErrorPct (estimated actual : ℚ) : ℚ :=
  if actual > 0 then |estimated - actual| / actual * 100 else 0

/-- One row of the `pricing_accuracy` table. -/
structure PricingAccuracyRow where
  line_item_description : String
  estimated_price : ℚ
  actual_price : ℚ
  error_percentage : ℚ
  source : String
  deriving DecidableEq

/-- `LearningEngine.record_pricing_accuracy`: compute the error percentage and
append the row (the table's key is `AUTOINCREMENT`, so this is a plain insert). -/
def record_pricing_accuracy (db : List PricingAccuracyRow)
    (description : String) (estimated actual : ℚ) (source : String) :
    List PricingAccuracyRow :=
  db ++ [{ line_item_description := description
           estimated_price := estimated
           actual_price := actual
           error_percentage := pricingErrorPct estimated actual
           source := source }]

/-! ### Helper lemmas about deduplication -/

/-- An id appears in the deduplicated output exactly when it appears in the
input and was not already seen. -/
theorem mem_map_id_dedupAux (l : List Opportunity) (seen : List String) (s : String) :
    s ∈ (dedupAux seen l).map (fun o => o.id) ↔
      s ∈ l.map (fun o => o.id) ∧ s ∉ seen := by
  induction l generalizing seen with
  | nil => simp [dedupAux]
  | cons o rest ih =>
    by_cases h : o.id ∈ seen
    · simp only [dedupAux, if_pos h, ih, List.map_cons, List.mem_cons]
      constructor
      · rintro ⟨hr, hs⟩
        exact ⟨Or.inr hr, hs⟩
      · rintro ⟨hor, hs⟩
        refine ⟨hor.resolve_left ?_, hs⟩
        rintro rfl
        exact hs h
    · simp only [dedupAux, if_neg h, ih, List.map_cons, List.mem_cons]
      by_cases hso : s = o.id
      · subst hso
        exact ⟨fun _ => ⟨Or.inl rfl, h⟩, fun _ => Or.inl rfl⟩
      · constructor
        · rintro (rfl | ⟨hr, hs⟩)
          · exact absurd rfl hso
          · exact ⟨Or.inr hr, fun hin => hs (Or.inr hin)⟩
        · rintro ⟨hor, hs⟩
          exact Or.inr ⟨hor.resolve_left hso, fun hin => hin.elim hso hs⟩

/-- The deduplicated output has pairwise-distinct ids, none of them in `seen`. -/
theorem dedupAux_ids_nodup (l : List Opportunity) (seen : List String) :
    ((dedupAux seen l).map (fun o => o.id)).Nodup ∧
      ∀ s ∈ (dedupAux seen l).map (fun o => o.id), s ∉ seen := by
  induction l generalizing seen with
  | nil => simp [dedupAux]
  | cons o rest ih =>
    by_cases h : o.id ∈ seen
    · simpa [dedupAux, h] using ih seen
    · obtain ⟨hnd, hnotin⟩ := ih (o.id :: seen)
      simp only [dedupAux, if_neg h, List.map_cons, List.nodup_cons]
      refine ⟨⟨fun hmem => ?_, hnd⟩, ?_⟩
      · exact hnotin o.id hmem (List.mem_cons_self _ _)
      · intro s hs
        rcases List.mem_cons.mp hs with rfl | hs'
        · exact h
        · exact fun hsn => hnotin s hs' (List.mem_cons_of_mem _ hsn)

/-- Deduplication is the identity on a list whose ids are already pairwise
distinct and disjoint from `seen`. -/
theorem dedupAux_eq_self (l : List Opportunity) (seen : List String)
    (hnd : (l.map (fun o => o.id)).Nodup)
    (hdisj : ∀ s ∈ l.map (fun o => o.id), s ∉ seen) :
    dedupAux seen l = l := by
  induction l generalizing seen with
  | nil => rfl
  | cons o rest ih =>
    simp only [List.map_cons, List.nodup_cons] at hnd
    have ho : o.id ∉ seen := hdisj o.id (by simp)
    simp only [dedupAux, if_neg ho]
    congr 1
    refine ih (o.id :: seen) hnd.2 ?_
    intro s hs hsn
    rcases List.mem_cons.mp hsn with rfl | hsn'
    · exact hnd.1 hs
    · exact hdisj s (by simpa using Or.inr hs) hsn'

/-- `_deduplicate` is idempotent. -/
theorem deduplicate_idempotent (l : List Opportunity) :
    deduplicate (deduplicate l) = deduplicate l := by
  obtain ⟨hnd, _⟩ := dedupAux_ids_nodup l []
  exact dedupAux_eq_self _ [] hnd (by simp)

/-- Deduplication preserves the set of ids. -/
theorem mem_map_id_deduplicate (l : List Opportunity) (s : String) :
    s ∈ (deduplicate l).map (fun o => o.id) ↔ s ∈ l.map (fun o => o.id) := by
  simpa using mem_map_id_dedupAux l [] s

/-! ### Concrete candidates for solicitation `AB-100` -/

/-- A RawCandidate for solicitation `AB-100` as reported by SAM.gov, with its
id derived by `__post_init__`. -/
def samAB100 : Opportunity :=
  postInit
    { id := ""
      source_portal := "SAM.gov"
      title := "Robotic cell"
      agency := "DoD"
      naics_codes := ["333249"]
      description := "Robotic welding cell"
      solicitation_number := "AB-100"
      posted_date := 0
      due_date := none
      estimated_value := some 120000
      set_aside := none
      location := some "CA"
      attachments := []
      match_score := 0
      win_probability := 0 }

/-- The same solicitation `AB-100` as reported by DIBBS, with its id derived
by `__post_init__`. -/
def dibbsAB100 : Opportunity :=
  postInit
    { id := ""
      source_portal := "DIBBS Marketplace"
      title := "Robotic cell"
      agency := "DoD"
      naics_codes := ["333249"]
      description := "Robotic welding cell"
      solicitation_number := "AB-100"
      posted_date := 0
      due_date := none
      estimated_value := none
      set_aside := none
      location := some "CA"
      attachments := []
      match_score := 0
      win_probability := 0 }

/-- C1 counterexample: two candidates carrying the same solicitation number
`AB-100` receive different identities when they come from different source
portals, because `generate_id` hashes `f"{source_portal}_{solicitation_number}"`. -/
theorem C1_counterexample :
    samAB100.solicitation_number = dibbsAB100.solicitation_number ∧
    samAB100.id = "4e212f307ed7cccc" ∧
    dibbsAB100.id = "c3bd10e15affbff9" ∧
    samAB100.id ≠ dibbsAB100.id := by
  refine ⟨rfl, ?_, ?_, ?_⟩ <;> decide

/-- C1 (amended): the canonical identity is a pure function of the pair
(source portal, solicitation number): two candidates agreeing on both receive
the same identity; candidates for the same solicitation from different portals
may receive different identities. -/
theorem C1_identity_pure (o1 o2 : Opportunity)
    (hp : o1.source_portal = o2.source_portal)
    (hs : o1.solicitation_number = o2.solicitation_number) :
    generate_id o1 = generate_id o2 := by
  unfold generate_id
  rw [hp, hs]

/-- Witness for `C1_identity_pure` at two concrete candidates that agree on
portal and solicitation number but differ in their title. -/
theorem C1_witness :
    samAB100.source_portal = samAB100.source_portal ∧
    generate_id samAB100 =
      generate_id { samAB100 with title := "Robotic welding cell rebid" } :=
  ⟨rfl, C1_identity_pure samAB100 _ rfl rfl⟩

/-! ### C2: deduplication is not a field-by-field merge -/

/-- A second SAM.gov candidate for `AB-100`: same derived identity as
`samAB100`, different field values. -/
def samAB100later : Opportunity :=
  postInit
    { id := ""
      source_portal := "SAM.gov"
      title := "Robotic welding cell (amended)"
      agency := "DoD"
      naics_codes := ["333249"]
      description := "Robotic welding cell, amendment 1"
      solicitation_number := "AB-100"
      posted_date := 1
      due_date := some 100
      estimated_value := none
      set_aside := none
      location := some "CA"
      attachments := []
      match_score := 0
      win_probability := 0 }

/-- C2 counterexample: the merge keeps the first-seen candidate wholesale, so
permuting the input changes the surviving field values, and a non-null value
(`due_date`, `estimated_value`) from the duplicate is dropped rather than
merged in. -/
theorem C2_counterexample :
    deduplicate [samAB100, samAB100later] = [samAB100] ∧
    deduplicate [samAB100later, samAB100] = [samAB100later] ∧
    samAB100.title ≠ samAB100later.title ∧
    samAB100.due_date = none ∧
    samAB100later.due_date = some 100 := by
  refine ⟨?_, ?_, ?_, ?_, ?_⟩ <;> decide

/-- C2 (amended): deduplicating the same candidate list is idempotent, and the
set of surviving identities is invariant under permutation of the input; but
duplicates are not merged field-by-field — the first-seen candidate per
identity is kept wholesale, so permuting the input can change field values. -/
theorem C2_dedup_idempotent_id_set_invariant (l l' : List Opportunity)
    (h : l.Perm l') :
    deduplicate (deduplicate l) = deduplicate l ∧
    ∀ s, s ∈ (deduplicate l).map (fun o => o.id) ↔
      s ∈ (deduplicate l').map (fun o => o.id) := by
  refine ⟨deduplicate_idempotent l, fun s => ?_⟩
  rw [mem_map_id_deduplicate, mem_map_id_deduplicate]
  exact (h.map (fun o => o.id)).mem_iff

/-- Witness for `C2_dedup_idempotent_id_set_invariant` at a concrete 2-element
list and its transposition. -/
theorem C2_witness :
    deduplicate (deduplicate [samAB100, dibbsAB100]) =
      deduplicate [samAB100, dibbsAB100] ∧
    (samAB100.id ∈ (deduplicate [samAB100, dibbsAB100]).map (fun o => o.id) ↔
      samAB100.id ∈ (deduplicate [dibbsAB100, samAB100]).map (fun o => o.id)) :=
  ⟨(C2_dedup_idempotent_id_set_invariant _ _ (List.Perm.swap _ _ [])).1,
   (C2_dedup_idempotent_id_set_invariant _ _ (List.Perm.swap _ _ [])).2 _⟩

/-! ### C3: partial-failure isolation in `scrape_all_portals` -/

/-- The aggregation reports one error per failed source. -/
theorem partitionResults_snd_length (rs : List (Except String (List Opportunity))) :
    (partitionResults rs).2.length = rs.countP isFailure := by
  induction rs with
  | nil => rfl
  | cons r rest ih =>
    cases r <;> simp [partitionResults, isFailure, List.countP_cons, ih]

/-- The aggregation flattens exactly the successful batches, in order. -/
theorem partitionResults_fst (rs : List (Except String (List Opportunity))) :
    (partitionResults rs).1 = (okBatches rs).flatten := by
  induction rs with
  | nil => rfl
  | cons r rest ih =>
    cases r <;> simp [partitionResults, okBatches, ih]

/-- C3: when N of the M due sources fail, the cycle reports exactly N
per-source errors, the collected candidates are exactly the concatenation of
the M−N successful sources' batches, and every successfully fetched
candidate's identity survives into the deduplicated output — no source's
failure removes another source's results. -/
theorem C3_partial_failure_isolation (results : List (Except String (List Opportunity))) :
    (scrape_all_portals results).2.length = results.countP isFailure ∧
    (partitionResults results).1 = (okBatches results).flatten ∧
    ∀ o ∈ (okBatches results).flatten,
      o.id ∈ (scrape_all_portals results).1.map (fun x => x.id) := by
  refine ⟨partitionResults_snd_length results, partitionResults_fst results, ?_⟩
  intro o ho
  have hmem : o.id ∈ (partitionResults results).1.map (fun o => o.id) := by
    rw [partitionResults_fst]
    exact List.mem_map_of_mem _ ho
  show o.id ∈ (deduplicate (partitionResults results).1).map (fun x => x.id)
  rw [mem_map_id_deduplicate]
  exact hmem

/-- A concrete cycle: two successful sources around one timed-out source. -/
def cycleResults : List (Except String (List Opportunity)) :=
  [.ok [samAB100], .error "timeout", .ok [dibbsAB100]]

/-- Witness for `C3_partial_failure_isolation` on a concrete 3-source cycle
with one failure. -/
theorem C3_witness :
    (scrape_all_portals cycleResults).2.length = cycleResults.countP isFailure ∧
    samAB100.id ∈ (scrape_all_portals cycleResults).1.map (fun x => x.id) :=
  ⟨(C3_partial_failure_isolation cycleResults).1,
   (C3_partial_failure_isolation cycleResults).2.2 samAB100 (by decide)⟩

/-! ### C9: the ranking sort -/

/-- Inserting into the ranking permutes. -/
theorem insertOpp_perm (x : Opportunity) (l : List Opportunity) :
    (insertOpp x l).Perm (x :: l) := by
  induction l with
  | nil => exact List.Perm.refl _
  | cons y ys ih =>
    by_cases h : x.match_score < y.match_score
    · simp only [insertOpp, if_pos h]
      exact (ih.cons y).trans (List.Perm.swap x y ys)
    · simp only [insertOpp, if_neg h]
      exact List.Perm.refl _

/-- The ranking sort permutes its input. -/
theorem sortOpportunities_perm (l : List Opportunity) :
    (sortOpportunities l).Perm l := by
  induction l with
  | nil => exact List.Perm.refl _
  | cons x xs ih => exact (insertOpp_perm x _).trans (ih.cons x)

/-- Inserting preserves descending order of scores. -/
theorem insertOpp_pairwise (x : Opportunity) (l : List Opportunity)
    (h : l.Pairwise (fun a b => b.match_score ≤ a.match_score)) :
    (insertOpp x l).Pairwise (fun a b => b.match_score ≤ a.match_score) := by
  induction l with
  | nil => simp [insertOpp]
  | cons y ys ih =>
    obtain ⟨hy, hys⟩ := List.pairwise_cons.mp h
    by_cases hlt : x.match_score < y.match_score
    · simp only [insertOpp, if_pos hlt]
      refine List.pairwise_cons.mpr ⟨?_, ih hys⟩
      intro z hz
      rcases List.mem_cons.mp ((insertOpp_perm x ys).mem_iff.mp hz) with rfl | hz'
      · exact le_of_lt hlt
      · exact hy z hz'
    · simp only [insertOpp, if_neg hlt]
      refine List.pairwise_cons.mpr ⟨?_, h⟩
      intro z hz
      rcases List.mem_cons.mp hz with rfl | hz'
      · exact le_of_not_lt hlt
      · exact (hy z hz').trans (le_of_not_lt hlt)

/-- The ranking sort yields descending scores. -/
theorem sortOpportunities_pairwise (l : List Opportunity) :
    (sortOpportunities l).Pairwise (fun a b => b.match_score ≤ a.match_score) := by
  induction l with
  | nil => simp [sortOpportunities]
  | cons x xs ih => exact insertOpp_pairwise x _ ih

/-- Stability of the insertion step: the elements of any fixed score are left
in their relative order. -/
theorem insertOpp_filter (x : Opportunity) (l : List Opportunity) (s : ℚ) :
    (insertOpp x l).filter (fun o => decide (o.match_score = s)) =
      ((x :: l).filter (fun o => decide (o.match_score = s))) := by
  induction l with
  | nil => rfl
  | cons y ys ih =>
    by_cases hlt : x.match_score < y.match_score
    · simp only [insertOpp, if_pos hlt]
      by_cases hys : y.match_score = s
      · have hx : ¬x.match_score = s := by
          intro hx
          rw [hx, hys] at hlt
          exact lt_irrefl s hlt
        simp [List.filter_cons, hys, hx, ih]
      · simp [List.filter_cons, hys, ih]
    · simp only [insertOpp, if_neg hlt]

/-- Stability of the ranking sort: for every score, the elements with that
score appear in the output exactly in their input order. -/
theorem sortOpportunities_filter (l : List Opportunity) (s : ℚ) :
    (sortOpportunities l).filter (fun o => decide (o.match_score = s)) =
      l.filter (fun o => decide (o.match_score = s)) := by
  induction l with
  | nil => rfl
  | cons x xs ih =>
    rw [sortOpportunities, insertOpp_filter]
    simp only [List.filter_cons, ih]

/-- An equally scored pair where the later-posted candidate sits first. -/
def tieLate : Opportunity :=
  { id := "t1"
    source_portal := "SAM.gov"
    title := "Conveyor retrofit"
    agency := "GSA"
    naics_codes := []
    description := ""
    solicitation_number := "T-1"
    posted_date := 5
    due_date := none
    estimated_value := none
    set_aside := none
    location := none
    attachments := []
    match_score := 60
    win_probability := 0 }

/-- An equally scored candidate posted earlier than `tieLate`. -/
def tieEarly : Opportunity :=
  { id := "t2"
    source_portal := "California eProcure"
    title := "PLC upgrade"
    agency := "Caltrans"
    naics_codes := []
    description := ""
    solicitation_number := "T-2"
    posted_date := 3
    due_date := none
    estimated_value := none
    set_aside := none
    location := none
    attachments := []
    match_score := 60
    win_probability := 0 }

/-- C9 counterexample: two opportunities with equal scores are left in input
order by `scored.sort(key=..., reverse=True)`; the earlier-posted one is NOT
moved first, so ties are not broken by earliest posted timestamp (nor source
name). -/
theorem C9_counterexample :
    sortOpportunities [tieLate, tieEarly] = [tieLate, tieEarly] ∧
    tieLate.match_score = tieEarly.match_score ∧
    tieEarly.posted_date < tieLate.posted_date ∧
    tieLate ≠ tieEarly := by
  refine ⟨?_, rfl, ?_, ?_⟩ <;> decide

/-- C9 (amended): the ranking orders opportunities by descending final score
and is deterministic for a fixed input list — it is a pure function and ties
between equal scores keep the input-list order (Python's stable sort); ties
are not re-ordered by posted timestamp or source name. -/
theorem C9_rank_descending_stable (l : List Opportunity) :
    (sortOpportunities l).Perm l ∧
    (sortOpportunities l).Pairwise (fun a b => b.match_score ≤ a.match_score) ∧
    ∀ s : ℚ, (sortOpportunities l).filter (fun o => decide (o.match_score = s)) =
      l.filter (fun o => decide (o.match_score = s)) :=
  ⟨sortOpportunities_perm l, sortOpportunities_pairwise l,
   fun s => sortOpportunities_filter l s⟩

/-! ### C5: the qualification threshold -/

/-- Membership in `get_top_opportunities` when the limit covers the whole
store and the score clears the threshold. -/
theorem mem_get_top (opportunities : List Opportunity) (opp : Opportunity)
    (ms : ℚ) (hm : opp ∈ opportunities) (hs : ms ≤ opp.match_score) :
    opp ∈ get_top_opportunities opportunities opportunities.length ms := by
  unfold get_top_opportunities
  have hmemf : opp ∈ opportunities.filter (fun o => decide (o.match_score ≥ ms)) :=
    List.mem_filter.mpr ⟨hm, by simpa [ge_iff_le] using hs⟩
  have hlen :
      (sortOpportunities
        (opportunities.filter (fun o => decide (o.match_score ≥ ms)))).length ≤
        opportunities.length := by
    rw [(sortOpportunities_perm _).length_eq]
    exact List.length_filter_le _ _
  rw [List.take_of_length_le hlen]
  exact (sortOpportunities_perm _).mem_iff.mpr hmemf

/-- C5: an opportunity is qualified exactly when its score reaches the
configured threshold (default 50): a score of exactly 50 is qualified and
returned by the score-threshold query, a score strictly below 50 is not
qualified but the opportunity remains queryable. -/
theorem C5_qualification_threshold (opportunities : List Opportunity)
    (opp : Opportunity) (hm : opp ∈ opportunities) :
    (opp ∈ qualify_opportunities opportunities ↔ min_match_score ≤ opp.match_score) ∧
    (opp.match_score = 50 →
      opp ∈ qualify_opportunities opportunities ∧
      opp ∈ get_top_opportunities opportunities opportunities.length 50) ∧
    (opp.match_score < 50 →
      opp ∉ qualify_opportunities opportunities ∧
      opp ∈ get_top_opportunities opportunities opportunities.length opp.match_score) := by
  have hiff : opp ∈ qualify_opportunities opportunities ↔
      min_match_score ≤ opp.match_score := by
    unfold qualify_opportunities
    rw [List.mem_filter]
    simp [hm, ge_iff_le]
  refine ⟨hiff, fun h50 => ⟨?_, ?_⟩, fun hlt => ⟨?_, ?_⟩⟩
  · exact hiff.mpr (by rw [h50, min_match_score])
  · exact mem_get_top _ _ _ hm (by rw [h50])
  · intro hq
    have := hiff.mp hq
    rw [min_match_score] at this
    exact absurd this (not_le.mpr hlt)
  · exact mem_get_top _ _ _ hm le_rfl

/-- An opportunity scoring exactly at the threshold. -/
def borderOpp : Opportunity :=
  { tieLate with id := "q1", solicitation_number := "Q-1", match_score := 50 }

/-- An opportunity scoring strictly below the threshold. -/
def lowOpp : Opportunity :=
  { tieEarly with id := "q2", solicitation_number := "Q-2", match_score := 49 }

/-- Witness for `C5_qualification_threshold` on a concrete two-element store. -/
theorem C5_witness :
    borderOpp ∈ qualify_opportunities [borderOpp, lowOpp] ∧
    lowOpp ∉ qualify_opportunities [borderOpp, lowOpp] ∧
    lowOpp ∈ get_top_opportunities [borderOpp, lowOpp] 2 49 :=
  ⟨((C5_qualification_threshold [borderOpp, lowOpp] borderOpp (by decide)).2.1
      (by decide)).1,
   ((C5_qualification_threshold [borderOpp, lowOpp] lowOpp
      (by decide)).2.2 (by decide)).1,
   ((C5_qualification_threshold [borderOpp, lowOpp] lowOpp
      (by decide)).2.2 (by decide)).2⟩

/-! ### C4: re-ingestion overwrites the pipeline record -/

/-- `INSERT OR REPLACE` keeps exactly one row for the saved record's key,
provided the table respected the primary key before. -/
theorem save_countP (db : List OpportunityRecord) (r : OpportunityRecord)
    (h : db.countP (fun x => x.id == r.id) ≤ 1) :
    (save_opportunity_record db r).countP (fun x => x.id == r.id) = 1 := by
  unfold save_opportunity_record
  by_cases hany : db.any (fun x => x.id == r.id)
  · rw [if_pos hany, List.countP_map]
    have hpt : ((fun x : OpportunityRecord => x.id == r.id) ∘
        fun x => if (x.id == r.id) = true then r else x) =
        fun x : OpportunityRecord => x.id == r.id := by
      funext x
      by_cases hx : x.id = r.id
      · simp [hx]
      · simp [hx]
    rw [hpt]
    have h1 : 0 < db.countP (fun x => x.id == r.id) := by
      rw [List.countP_pos_iff]
      exact List.any_eq_true.mp hany
    omega
  · rw [if_neg hany, List.countP_append]
    have h0 : db.countP (fun x => x.id == r.id) = 0 := by
      rw [List.countP_eq_zero]
      intro a ha hpa
      exact hany (List.any_eq_true.mpr ⟨a, ha, hpa⟩)
    simp [h0, List.countP_cons]

/-- After `INSERT OR REPLACE`, the row at the saved key is the saved record,
and every other row was already in the table. -/
theorem save_mem (db : List OpportunityRecord) (r : OpportunityRecord) :
    ∀ x ∈ save_opportunity_record db r,
      (x.id = r.id → x = r) ∧ (x.id ≠ r.id → x ∈ db) := by
  intro x hx
  unfold save_opportunity_record at hx
  by_cases hany : db.any (fun y => y.id == r.id)
  · rw [if_pos hany] at hx
    obtain ⟨y, hy, hxy⟩ := List.mem_map.mp hx
    by_cases hyid : y.id == r.id
    · rw [if_pos hyid] at hxy
      subst hxy
      exact ⟨fun _ => rfl, fun hne => absurd rfl hne⟩
    · rw [if_neg hyid] at hxy
      subst hxy
      have hne : y.id ≠ r.id := by simpa using hyid
      exact ⟨fun he => absurd he hne, fun _ => hy⟩
  · rw [if_neg hany] at hx
    rcases List.mem_append.mp hx with hdb | hr
    · have hne : x.id ≠ r.id := by
        intro he
        refine hany (List.any_eq_true.mpr ⟨x, hdb, ?_⟩)
        simp [he]
      exact ⟨fun he => absurd he hne, fun _ => hdb⟩
    · have hxr : x = r := by simpa using hr
      subst hxr
      exact ⟨fun _ => rfl, fun hne => absurd rfl hne⟩

/-- C4 (amended): re-processing an opportunity whose identity already has a
record performs an upsert keyed by identity — exactly one record for that
identity remains and every other record is untouched — but the record is
replaced wholesale: its stage is overwritten with `RFQ_GENERATED` (the final
stage of the happy processing path, regardless of the stage stored before)
and its score with the incoming score. -/
theorem C4_reingest_upsert (db : List OpportunityRecord) (now : ℚ)
    (opp : Opportunity) (h : db.countP (fun r => r.id == opp.id) ≤ 1) :
    (process_opportunity db now opp).countP (fun r => r.id == opp.id) = 1 ∧
    (∀ r ∈ process_opportunity db now opp, r.id = opp.id →
      r.stage = OpportunityStage.RFQ_GENERATED ∧ r.match_score = opp.match_score) ∧
    (∀ r ∈ process_opportunity db now opp, r.id ≠ opp.id → r ∈ db) := by
  have hdef : process_opportunity db now opp =
      save_opportunity_record db
        { recordFromOpportunity now opp with stage := OpportunityStage.RFQ_GENERATED } := rfl
  rw [hdef]
  refine ⟨?_, ?_, ?_⟩
  · exact save_countP db
      { recordFromOpportunity now opp with stage := OpportunityStage.RFQ_GENERATED } h
  · intro r hr hid
    have hrr := (save_mem db
      { recordFromOpportunity now opp with stage := OpportunityStage.RFQ_GENERATED }
      r hr).1 hid
    rw [hrr]
    exact ⟨rfl, rfl⟩
  · intro r hr hne
    exact (save_mem db
      { recordFromOpportunity now opp with stage := OpportunityStage.RFQ_GENERATED }
      r hr).2 hne

/-- A stored record already past the processing stages. -/
def submittedRec : OpportunityRecord :=
  { id := "abc123"
    solicitation_number := "S-9"
    source_portal := "SAM.gov"
    title := "Vision system"
    agency := "DoD"
    stage := .PROPOSAL_SUBMITTED
    match_score := 88
    win_probability := 1 / 2
    discovered_at := 0
    qualified_at := some 0
    manual_interventions := [] }

/-- The same opportunity rediscovered in a later cycle. -/
def reingestOpp : Opportunity :=
  { id := "abc123"
    source_portal := "SAM.gov"
    title := "Vision system"
    agency := "DoD"
    naics_codes := ["333249"]
    description := ""
    solicitation_number := "S-9"
    posted_date := 0
    due_date := none
    estimated_value := none
    set_aside := none
    location := none
    attachments := []
    match_score := 91
    win_probability := 1 / 2 }

/-- C4 counterexample: re-processing an opportunity whose record sits at
`PROPOSAL_SUBMITTED` leaves a single record whose stage is `RFQ_GENERATED`
— an earlier stage — so the stored stage IS reset backward. -/
theorem C4_counterexample :
    submittedRec.stage = OpportunityStage.PROPOSAL_SUBMITTED ∧
    (process_opportunity [submittedRec] 10 reingestOpp).map (fun r => r.stage) =
      [OpportunityStage.RFQ_GENERATED] ∧
    stageIndex OpportunityStage.RFQ_GENERATED <
      stageIndex OpportunityStage.PROPOSAL_SUBMITTED ∧
    (process_opportunity [submittedRec] 10 reingestOpp).length = 1 := by
  refine ⟨rfl, ?_, ?_, ?_⟩ <;> decide

/-- Witness for `C4_reingest_upsert` on a concrete one-record store. -/
theorem C4_witness :
    [submittedRec].countP (fun r => r.id == reingestOpp.id) ≤ 1 ∧
    (process_opportunity [submittedRec] 10 reingestOpp).countP
      (fun r => r.id == reingestOpp.id) = 1 :=
  ⟨by decide, (C4_reingest_upsert [submittedRec] 10 reingestOpp (by decide)).1⟩

/-! ### C6: the semantic-judgment factor is always neutralized into [0,1] -/

/-- C6: when the external semantic-judgment call fails, the factor is the
neutral 0.5; when it returns a number, the number is clamped into [0,1]; in
every case the returned factor lies in [0,1], so a judgment error never
propagates as a failure of the score. -/
theorem C6_semantic_factor_neutralized (response : Except String ℚ) :
    (∀ e, response = Except.error e → score_keywords response = 1 / 2) ∧
    (∀ s, response = Except.ok s → score_keywords response = max 0 (min 1 s)) ∧
    0 ≤ score_keywords response ∧ score_keywords response ≤ 1 := by
  refine ⟨fun e he => by rw [he]; rfl, fun s hs => by rw [hs]; rfl, ?_, ?_⟩
  · cases response with
    | error e => norm_num [score_keywords]
    | ok s => exact le_max_left 0 _
  · cases response with
    | error e => norm_num [score_keywords]
    | ok s => exact max_le (by norm_num) (min_le_left 1 s)

/-- Witness for `C6_semantic_factor_neutralized` at a failed call and at an
out-of-range response. -/
theorem C6_witness :
    score_keywords (Except.error "api timeout") = 1 / 2 ∧
    score_keywords (Except.ok 7) = max 0 (min 1 7) ∧
    score_keywords (Except.ok 7) ≤ 1 :=
  ⟨(C6_semantic_factor_neutralized (Except.error "api timeout")).1 "api timeout" rfl,
   (C6_semantic_factor_neutralized (Except.ok 7)).2.1 7 rfl,
   (C6_semantic_factor_neutralized (Except.ok 7)).2.2.2⟩

/-! ### C7: the value-fit factor -/

/-- C7: for a configured range with `0 < lo ≤ hi`, the value-fit factor is 0.5
for an unknown value, 1.0 inside the range, `max(0.3, value/lo)` below it, and
`max(0.2, hi/value)` above it. -/
theorem C7_value_fit (p : CompanyProfile) (_hlo : 0 < p.sweet_spot_lo)
    (hlohi : p.sweet_spot_lo ≤ p.sweet_spot_hi) :
    score_contract_value p none = 1 / 2 ∧
    (∀ v : ℚ, p.sweet_spot_lo ≤ v → v ≤ p.sweet_spot_hi →
      score_contract_value p (some v) = 1) ∧
    (∀ v : ℚ, v < p.sweet_spot_lo →
      score_contract_value p (some v) = max (3 / 10) (v / p.sweet_spot_lo)) ∧
    (∀ v : ℚ, p.sweet_spot_hi < v →
      score_contract_value p (some v) = max (1 / 5) (p.sweet_spot_hi / v)) := by
  refine ⟨rfl, ?_, ?_, ?_⟩
  · intro v h1 h2
    simp [score_contract_value, h1, h2]
  · intro v hv
    have hnot : ¬(p.sweet_spot_lo ≤ v ∧ v ≤ p.sweet_spot_hi) :=
      fun hc => absurd hv (not_lt.mpr hc.1)
    simp [score_contract_value, hnot, hv]
  · intro v hv
    have hnot : ¬(p.sweet_spot_lo ≤ v ∧ v ≤ p.sweet_spot_hi) :=
      fun hc => absurd hv (not_lt.mpr hc.2)
    have hnlt : ¬v < p.sweet_spot_lo := not_lt.mpr (hlohi.trans hv.le)
    simp [score_contract_value, hnot, hnlt]

/-- Witness for `C7_value_fit` at the configured $50k–$500k profile with the
in-range value $120,000 and an unknown value. -/
theorem C7_witness :
    (0 : ℚ) < singhProfile.sweet_spot_lo ∧
    score_contract_value singhProfile (some 120000) = 1 ∧
    score_contract_value singhProfile none = 1 / 2 :=
  ⟨by norm_num [singhProfile],
   (C7_value_fit singhProfile (by norm_num [singhProfile])
      (by norm_num [singhProfile])).2.1 120000
      (by norm_num [singhProfile]) (by norm_num [singhProfile]),
   (C7_value_fit singhProfile (by norm_num [singhProfile])
      (by norm_num [singhProfile])).1⟩

/-! ### C8: failed fetches never shorten the scheduling interval -/

/-- C8: after consecutive failed fetches (zero yield recorded each time), a
source is due again only once at least its base interval has elapsed — the
effective interval is the base halved only above 5 opportunities/fetch,
doubled below 1, and unchanged otherwise, so failure (yield 0) doubles it. -/
theorem C8_failure_never_speeds_up (cfg : PortalConfig) (t1 t2 now : ℚ)
    (hbase : 0 ≤ cfg.scrape_frequency_hours) :
    (should_scrape (scrapeUpdate (scrapeUpdate cfg t1 0) t2 0) now = true →
      cfg.scrape_frequency_hours ≤ now - t2) ∧
    (5 < cfg.avg_opportunities_per_scrape →
      effectiveFrequency cfg = cfg.scrape_frequency_hours * (1 / 2)) ∧
    (cfg.avg_opportunities_per_scrape < 1 →
      effectiveFrequency cfg = cfg.scrape_frequency_hours * 2) ∧
    (1 ≤ cfg.avg_opportunities_per_scrape → cfg.avg_opportunities_per_scrape ≤ 5 →
      effectiveFrequency cfg = cfg.scrape_frequency_hours) := by
  refine ⟨?_, ?_, ?_, ?_⟩
  · intro hdue
    have h : now - t2 ≥ effectiveFrequency (scrapeUpdate (scrapeUpdate cfg t1 0) t2 0) :=
      of_decide_eq_true hdue
    have he : effectiveFrequency (scrapeUpdate (scrapeUpdate cfg t1 0) t2 0) =
        cfg.scrape_frequency_hours * 2 := by
      norm_num [effectiveFrequency, scrapeUpdate]
    rw [he] at h
    linarith
  · intro h5
    unfold effectiveFrequency
    rw [if_pos h5]
  · intro h1
    unfold effectiveFrequency
    rw [if_neg (not_lt.mpr (h1.le.trans (by norm_num))), if_pos h1]
  · intro hge hle
    unfold effectiveFrequency
    rw [if_neg (not_lt.mpr hle), if_neg (not_lt.mpr hge)]

/-- The California eProcure portal configuration's scheduling fields
(base interval 12 hours, nothing fetched yet). -/
def caCfg : PortalConfig :=
  { name := "California eProcure"
    scrape_frequency_hours := 12
    naics_codes := ["333249", "541330", "541512"]
    keywords := ["automation", "robotics", "material handling"]
    last_scrape := none
    success_rate := 1
    avg_opportunities_per_scrape := 0 }

/-- Witness for `C8_failure_never_speeds_up`: after two failed fetches of the
12-hour portal (second at t=0), being due at t=24 implies at least the base
interval elapsed, and the zero-yield effective interval is the base doubled. -/
theorem C8_witness :
    (0 : ℚ) ≤ caCfg.scrape_frequency_hours ∧
    caCfg.scrape_frequency_hours ≤ 24 - 0 ∧
    effectiveFrequency caCfg = caCfg.scrape_frequency_hours * 2 :=
  ⟨by norm_num [caCfg],
   (C8_failure_never_speeds_up caCfg 0 0 24 (by norm_num [caCfg])).1
     (by norm_num [should_scrape, scrapeUpdate, effectiveFrequency, caCfg]),
   (C8_failure_never_speeds_up caCfg 0 0 24 (by norm_num [caCfg])).2.2.1
     (by norm_num [caCfg])⟩

/-! ### C10: pricing-accuracy recording is total -/

/-- C10: recording a pricing-accuracy observation is total: it appends one row
whose stored error percentage is `|estimated − actual| / actual × 100` when
the actual price is positive and `0` when the actual price is ≤ 0 — no
division by zero ever occurs. -/
theorem C10_pricing_error_total (db : List PricingAccuracyRow)
    (description : String) (estimated actual : ℚ) (source : String) :
    record_pricing_accuracy db description estimated actual source =
      db ++ [{ line_item_description := description
               estimated_price := estimated
               actual_price := actual
               error_percentage := pricingErrorPct estimated actual
               source := source }] ∧
    (0 < actual → pricingErrorPct estimated actual = |estimated - actual| / actual * 100) ∧
    (actual ≤ 0 → pricingErrorPct estimated actual = 0) := by
  refine ⟨rfl, fun h => ?_, fun h => ?_⟩
  · unfold pricingErrorPct
    rw [if_pos h]
  · unfold pricingErrorPct
    rw [if_neg (not_lt.mpr h)]

/-- Witness for `C10_pricing_error_total`: a 10% overestimate, and an
observation with actual price 0 stored with error 0. -/
theorem C10_witness :
    pricingErrorPct 110 100 = 10 ∧ pricingErrorPct 5 0 = 0 :=
  ⟨by
    rw [(C10_pricing_error_total [] "" 110 100 "").2.1 (by norm_num)]
    rw [show |(110 : ℚ) - 100| = 10 by rw [abs_of_nonneg] <;> norm_num]
    norm_num,
   (C10_pricing_error_total [] "" 5 0 "").2.2 le_rfl⟩

end WinScope
